import Mathlib

/-!
Verification of the fiddle overlap-partitioning / transfer pipeline excerpt.

This file shallowly embeds the C++ source into Lean 4:
- pure geometric predicates (`intersects`, the intersection-predicate
  classes) become Lean functions over rational-coordinate bounding boxes;
- fatal assertion failures (deal.II `Assert` / `AssertThrow`) become
  `Option`-valued functions returning `none`;
- methods that mutate object state become functions from the old state
  to the new state;
- MPI handles, pointers and other identities are modelled as natural
  numbers compared for equality.

Code of the repository that is only *called* here (the `Scatter` class,
the `NoncontiguousPartitioner` ghost exchange, the dof-translation
builder) is modelled from the spec; those definitions carry a
`Modelled from the spec:` doc comment.
-/

namespace Fdl

/-- An axis-aligned bounding box in `spacedim` dimensions
(`dealii::BoundingBox<spacedim>`): a lower and an upper corner, with one
rational coordinate per axis. -/
structure BoundingBox (spacedim : Nat) where
  lower : Fin spacedim → ℚ
  upper : Fin spacedim → ℚ

instance (n : Nat) : Inhabited (BoundingBox n) := ⟨⟨fun _ => 0, fun _ => 0⟩⟩

/-- A bounding box is well formed when on every axis the lower bound does
not exceed the upper bound (the `BoundingBox` class invariant). -/
def wellFormedBox {n : Nat} (b : BoundingBox n) : Prop :=
  ∀ d : Fin n, b.lower d ≤ b.upper d

instance {n : Nat} (b : BoundingBox n) : Decidable (wellFormedBox b) :=
  inferInstanceAs (Decidable (∀ _, _))

/-- The free function `fdl::intersects(a, b)`: for each coordinate axis
`d` the code returns `false` as soon as
`!((a.lo ≤ b.lo ∧ b.lo ≤ a.hi) ∨ (a.lo ≤ b.hi ∧ b.hi ≤ a.hi)) ∧
 !(b.lo ≤ a.lo ∧ a.lo ≤ b.hi)` holds, and `true` after the loop. -/
def intersects {n : Nat} (a b : BoundingBox n) : Bool :=
  (List.finRange n).all fun d =>
    !((!((decide (a.lower d ≤ b.lower d) && decide (b.lower d ≤ a.upper d)) ||
         (decide (a.lower d ≤ b.upper d) && decide (b.upper d ≤ a.upper d)))) &&
      (!(decide (b.lower d ≤ a.lower d) && decide (a.lower d ≤ b.upper d))))

/-- The spec's characterisation of box intersection: along every axis,
one of the two boxes has its lower bound inside the other's closed
interval. -/
def specBoxIntersects {n : Nat} (a b : BoundingBox n) : Prop :=
  ∀ d : Fin n,
    (a.lower d ≤ b.lower d ∧ b.lower d ≤ a.upper d) ∨
    (b.lower d ≤ a.lower d ∧ a.lower d ≤ b.upper d)

/-- `fdl::TriaIntersectionPredicate`: holds the candidate region
bounding boxes. -/
structure TriaIntersectionPredicate (n : Nat) where
  bounding_boxes : List (BoundingBox n)

/-- `TriaIntersectionPredicate::operator()`: computes the cell's bounding
box (here the cell is represented by that box, the only datum the
operator reads from it) and returns `true` iff it `intersects` some
candidate box. -/
def TriaIntersectionPredicate.opCall {n : Nat} (p : TriaIntersectionPredicate n)
    (cell_bbox : BoundingBox n) : Bool :=
  p.bounding_boxes.any fun bbox => intersects cell_bbox bbox

/- Helper lemmas about the per-axis check. -/

/-- The per-axis disjunct actually tested by the code's loop body. -/
def axisCheck {n : Nat} (a b : BoundingBox n) (d : Fin n) : Prop :=
  (a.lower d ≤ b.lower d ∧ b.lower d ≤ a.upper d) ∨
  (a.lower d ≤ b.upper d ∧ b.upper d ≤ a.upper d) ∨
  (b.lower d ≤ a.lower d ∧ a.lower d ≤ b.upper d)

theorem intersects_eq_true_iff {n : Nat} (a b : BoundingBox n) :
    intersects a b = true ↔ ∀ d : Fin n, axisCheck a b d := by
  unfold intersects axisCheck
  rw [List.all_eq_true]
  constructor
  · intro h d
    have := h d (List.mem_finRange d)
    revert this
    simp only [Bool.not_and, Bool.not_or, Bool.or_eq_true, Bool.not_eq_true',
      Bool.and_eq_true, decide_eq_true_eq, Bool.not_eq_false',
      Bool.not_eq_true, Bool.decide_and, decide_eq_false_iff_not]
    tauto
  · intro h d _
    have := h d
    simp only [Bool.not_and, Bool.not_or, Bool.or_eq_true, Bool.not_eq_true',
      Bool.and_eq_true, decide_eq_true_eq, Bool.not_eq_false',
      Bool.not_eq_true, Bool.decide_and, decide_eq_false_iff_not]
    tauto

/-- For a well-formed second box, the three-disjunct check of the code
agrees with the two-disjunct characterisation of the spec on each axis. -/
theorem axisCheck_iff_spec {n : Nat} (a b : BoundingBox n) (d : Fin n)
    (hb : b.lower d ≤ b.upper d) :
    axisCheck a b d ↔
      ((a.lower d ≤ b.lower d ∧ b.lower d ≤ a.upper d) ∨
       (b.lower d ≤ a.lower d ∧ a.lower d ≤ b.upper d)) := by
  unfold axisCheck
  constructor
  · rintro (h1 | h2 | h3)
    · exact Or.inl h1
    · rcases le_total (a.lower d) (b.lower d) with hab | hba
      · exact Or.inl ⟨hab, le_trans hb h2.2⟩
      · exact Or.inr ⟨hba, h2.1⟩
    · exact Or.inr h3
  · rintro (h1 | h2)
    · exact Or.inl h1
    · exact Or.inr (Or.inr h2)

theorem intersects_iff_spec {n : Nat} (a b : BoundingBox n)
    (hb : wellFormedBox b) :
    intersects a b = true ↔ specBoxIntersects a b := by
  rw [intersects_eq_true_iff]
  unfold specBoxIntersects
  exact forall_congr' fun d => axisCheck_iff_spec a b d (hb d)

/-- The spec characterisation is symmetric in its two boxes. -/
theorem specBoxIntersects_comm {n : Nat} (a b : BoundingBox n) :
    specBoxIntersects a b ↔ specBoxIntersects b a := by
  unfold specBoxIntersects
  exact forall_congr' fun d => or_comm

/- Concrete boxes used by the spec's intersection-predicate test cases
(in three space dimensions). -/

/-- The unit cube `[0,1]^3`. -/
def unitCube : BoundingBox 3 := ⟨fun _ => 0, fun _ => 1⟩

/-- The unit cube translated by 2 along axis 0: `[2,3] × [0,1] × [0,1]`. -/
def cubeShiftTwo : BoundingBox 3 :=
  ⟨fun d => if d = 0 then 2 else 0, fun d => if d = 0 then 3 else 1⟩

/-- The unit cube translated by 1/2 along axis 0:
`[1/2,3/2] × [0,1] × [0,1]`. -/
def cubeShiftHalf : BoundingBox 3 :=
  ⟨fun d => if d = 0 then 1/2 else 0, fun d => if d = 0 then 3/2 else 1⟩

/-- A cube nested strictly inside the unit cube: `[1/4,3/4]^3`. -/
def nestedCube : BoundingBox 3 := ⟨fun _ => 1/4, fun _ => 3/4⟩

theorem wellFormed_unitCube : wellFormedBox unitCube := by
  intro d; simp [unitCube]

theorem wellFormed_cubeShiftTwo : wellFormedBox cubeShiftTwo := by
  intro d; unfold cubeShiftTwo; dsimp only
  split <;> norm_num

theorem wellFormed_cubeShiftHalf : wellFormedBox cubeShiftHalf := by
  intro d; unfold cubeShiftHalf; dsimp only
  split <;> norm_num

theorem wellFormed_nestedCube : wellFormedBox nestedCube := by
  intro d; unfold nestedCube; dsimp only; norm_num

theorem intersects_unitCube_cubeShiftTwo : intersects unitCube cubeShiftTwo = false := by
  rw [Bool.eq_false_iff]
  intro h
  have h0 := (intersects_eq_true_iff _ _).mp h 0
  unfold axisCheck unitCube cubeShiftTwo at h0
  norm_num at h0

theorem intersects_unitCube_cubeShiftHalf : intersects unitCube cubeShiftHalf = true := by
  rw [intersects_eq_true_iff]
  intro d
  unfold axisCheck unitCube cubeShiftHalf
  dsimp only
  split <;> norm_num

theorem intersects_nestedCube_unitCube : intersects nestedCube unitCube = true := by
  rw [intersects_eq_true_iff]
  intro d
  unfold axisCheck nestedCube unitCube
  norm_num

/-- C1: `TriaIntersectionPredicate::operator()` returns `true` iff the
cell's bounding box intersects at least one candidate box in the sense of
the spec's per-axis characterisation (AND over axes, OR over candidate
boxes); in particular a unit cube against a unit cube translated by 2
along one axis gives `false`, translated by 1/2 gives `true`, and a
nested pair gives `true`. Candidate boxes are required to be well formed
(lower corner ≤ upper corner, the `BoundingBox` invariant). -/
theorem C1_tria_intersection_predicate :
    (∀ (n : Nat) (p : TriaIntersectionPredicate n) (cell_bbox : BoundingBox n),
       (∀ b ∈ p.bounding_boxes, wellFormedBox b) →
       (p.opCall cell_bbox = true ↔
         ∃ b ∈ p.bounding_boxes, specBoxIntersects cell_bbox b)) ∧
    (TriaIntersectionPredicate.mk [cubeShiftTwo]).opCall unitCube = false ∧
    (TriaIntersectionPredicate.mk [cubeShiftHalf]).opCall unitCube = true ∧
    (TriaIntersectionPredicate.mk [unitCube]).opCall nestedCube = true := by
  refine ⟨?_, ?_, ?_, ?_⟩
  case refine_2 =>
    simp [TriaIntersectionPredicate.opCall, intersects_unitCube_cubeShiftTwo]
  case refine_3 =>
    simp [TriaIntersectionPredicate.opCall, intersects_unitCube_cubeShiftHalf]
  case refine_4 =>
    simp [TriaIntersectionPredicate.opCall, intersects_nestedCube_unitCube]
  intro n p cell_bbox hwf
  unfold TriaIntersectionPredicate.opCall
  rw [List.any_eq_true]
  constructor
  · rintro ⟨b, hmem, hb⟩
    exact ⟨b, hmem, (intersects_iff_spec cell_bbox b (hwf b hmem)).mp hb⟩
  · rintro ⟨b, hmem, hb⟩
    exact ⟨b, hmem, (intersects_iff_spec cell_bbox b (hwf b hmem)).mpr hb⟩

/-- Witness for C1: the main equivalence evaluated for the unit cube
against the half-shifted cube. -/
theorem C1_tria_intersection_predicate_witness :
    (TriaIntersectionPredicate.mk [cubeShiftHalf]).opCall unitCube = true ↔
      ∃ b ∈ [cubeShiftHalf], specBoxIntersects unitCube b :=
  C1_tria_intersection_predicate.1 3 (TriaIntersectionPredicate.mk [cubeShiftHalf])
    unitCube (by
      intro b hb
      rw [List.mem_singleton] at hb
      rw [hb]
      exact wellFormed_cubeShiftHalf)

/-- C8: `intersects` is commutative on well-formed boxes, although the
per-axis test is written with three disjuncts rather than four. -/
theorem C8_intersects_comm {n : Nat} (a b : BoundingBox n)
    (ha : wellFormedBox a) (hb : wellFormedBox b) :
    intersects a b = intersects b a := by
  have h1 := intersects_iff_spec a b hb
  have h2 := intersects_iff_spec b a ha
  have h3 := specBoxIntersects_comm a b
  by_cases h : intersects a b = true
  · rw [h, Eq.comm, h2, ← h3, ← h1, h]
  · have h' : intersects a b = false := by
      cases hab : intersects a b
      · rfl
      · exact absurd hab h
    rw [h']
    cases hba : intersects b a
    · rfl
    · exact absurd (h1.mpr (h3.mpr (h2.mp hba))) h

/-- Witness for C8: commutativity evaluated on the unit cube and the
nested cube. -/
theorem C8_intersects_comm_witness :
    intersects unitCube nestedCube = intersects nestedCube unitCube :=
  C8_intersects_comm unitCube nestedCube wellFormed_unitCube wellFormed_nestedCube

/-! ### FEIntersectionPredicate (src/unnamed/part_001, lines 122-226) -/

/-- `fdl::FEIntersectionPredicate`: after construction it holds the patch
bounding boxes and the globally-reduced per-active-cell bounding boxes
(indexed by active cell index). The construction itself (FEValues node
evaluation plus the MPI allreduce) is outside the scope of the embedded
operator. -/
structure FEIntersectionPredicate (n : Nat) where
  patch_bboxes : List (BoundingBox n)
  active_cell_bboxes : List (BoundingBox n)

/-- A triangulation cell as seen by `FEIntersectionPredicate::operator()`:
an active cell carries its active cell index (used to look up
`active_cell_bboxes`); a non-active cell carries its list of children. -/
inductive Cell (n : Nat) : Type where
  | active (active_cell_index : Nat) : Cell n
  | inner (children : List (Cell n)) : Cell n

mutual

/-- `FEIntersectionPredicate::operator()`: for an active cell, look up its
bounding box and test it against every patch box; for a non-active cell
with children, recurse into the children and stop at the first
intersecting one; a non-active cell without children trips
`Assert(false, ExcNotImplemented())`, embedded as `none`. A fatal
assertion inside a recursive call propagates outward. -/
def FEIntersectionPredicate.opCall {n : Nat} (pred : FEIntersectionPredicate n) :
    Cell n → Option Bool
  | .active i =>
      some (pred.patch_bboxes.any fun bbox =>
        intersects (pred.active_cell_bboxes.getD i default) bbox)
  | .inner [] => none
  | .inner (c :: cs) => FEIntersectionPredicate.opChildren pred (c :: cs)

/-- The child loop of `FEIntersectionPredicate::operator()`: evaluate the
predicate on each child in order, breaking at the first `true`. -/
def FEIntersectionPredicate.opChildren {n : Nat} (pred : FEIntersectionPredicate n) :
    List (Cell n) → Option Bool
  | [] => some false
  | c :: cs =>
    match FEIntersectionPredicate.opCall pred c with
    | none => none
    | some true => some true
    | some false => FEIntersectionPredicate.opChildren pred cs

end

mutual

/-- Active cell indices of all active descendants of a cell, in the
left-to-right order the recursion visits them. -/
def Cell.activeIndices {n : Nat} : Cell n → List Nat
  | .active i => [i]
  | .inner cs => Cell.activeIndicesList cs

/-- Active cell indices of all active descendants of a list of cells. -/
def Cell.activeIndicesList {n : Nat} : List (Cell n) → List Nat
  | [] => []
  | c :: cs => c.activeIndices ++ Cell.activeIndicesList cs

end

/-- A cell tree is well formed when every non-active cell has at least
one child — the deal.II triangulation invariant (`is_active()` is
equivalent to `!has_children()`). -/
inductive Cell.WellFormed {n : Nat} : Cell n → Prop where
  | active (i : Nat) : Cell.WellFormed (.active i)
  | inner (cs : List (Cell n)) (hne : cs ≠ [])
      (h : ∀ c ∈ cs, Cell.WellFormed c) : Cell.WellFormed (.inner cs)

/-- Whether the recorded bounding box of the active cell with index `i`
intersects some patch box. -/
def FEIntersectionPredicate.cellHit {n : Nat} (pred : FEIntersectionPredicate n)
    (i : Nat) : Bool :=
  pred.patch_bboxes.any fun bbox =>
    intersects (pred.active_cell_bboxes.getD i default) bbox

theorem opChildren_eval {n : Nat} (pred : FEIntersectionPredicate n)
    (cs : List (Cell n))
    (h : ∀ c ∈ cs, pred.opCall c = some (c.activeIndices.any pred.cellHit)) :
    pred.opChildren cs = some ((Cell.activeIndicesList cs).any pred.cellHit) := by
  induction cs with
  | nil => rfl
  | cons c cs ih =>
    have hc := h c (List.mem_cons_self c cs)
    have hrest : ∀ c' ∈ cs, pred.opCall c' = some (c'.activeIndices.any pred.cellHit) :=
      fun c' hc' => h c' (List.mem_cons_of_mem c hc')
    rw [FEIntersectionPredicate.opChildren, hc, Cell.activeIndicesList, List.any_append]
    cases hval : c.activeIndices.any pred.cellHit with
    | true => rfl
    | false => rw [ih hrest, Bool.false_or]

theorem opCall_wellFormed {n : Nat} (pred : FEIntersectionPredicate n)
    (c : Cell n) (h : c.WellFormed) :
    pred.opCall c = some (c.activeIndices.any pred.cellHit) := by
  induction h with
  | active i =>
    rw [FEIntersectionPredicate.opCall, Cell.activeIndices, List.any_cons, List.any_nil,
      Bool.or_false]
    rfl
  | inner cs hne hwf ih =>
    cases cs with
    | nil => exact absurd rfl hne
    | cons c cs =>
      rw [FEIntersectionPredicate.opCall, Cell.activeIndices]
      exact opChildren_eval pred (c :: cs) ih

/-- C5: on a non-active cell with children, `FEIntersectionPredicate::operator()`
returns `true` iff some active descendant's recorded bounding box
intersects a candidate patch box (for a well-formed cell tree); applying
it to a non-active cell without children is a fatal internal-error
condition, embedded as `none`. -/
theorem C5_fe_intersection_predicate_recursion :
    (∀ (n : Nat) (pred : FEIntersectionPredicate n) (cs : List (Cell n)),
       cs ≠ [] → (∀ c ∈ cs, Cell.WellFormed c) →
       (pred.opCall (.inner cs) = some true ↔
         ∃ i ∈ (Cell.inner cs).activeIndices, ∃ p ∈ pred.patch_bboxes,
           intersects (pred.active_cell_bboxes.getD i default) p = true)) ∧
    (∀ (n : Nat) (pred : FEIntersectionPredicate n),
       pred.opCall (.inner ([] : List (Cell n))) = none) := by
  constructor
  · intro n pred cs hne hwf
    rw [opCall_wellFormed pred (.inner cs) (Cell.WellFormed.inner cs hne hwf)]
    rw [Option.some_inj, List.any_eq_true]
    constructor
    · rintro ⟨i, hi, hhit⟩
      rw [FEIntersectionPredicate.cellHit, List.any_eq_true] at hhit
      exact ⟨i, hi, hhit⟩
    · rintro ⟨i, hi, hp⟩
      refine ⟨i, hi, ?_⟩
      rw [FEIntersectionPredicate.cellHit, List.any_eq_true]
      exact hp
  · intro n pred
    rfl

/-- Witness for C5: a two-level tree (one parent, one active child with
index 0) against a single patch box containing the child's box. -/
theorem C5_fe_intersection_predicate_recursion_witness :
    (FEIntersectionPredicate.mk [unitCube] [nestedCube]).opCall
        (.inner [.active 0]) = some true ↔
      ∃ i ∈ (Cell.inner [Cell.active (n := 3) 0]).activeIndices,
        ∃ p ∈ [unitCube],
          intersects ([nestedCube].getD i default) p = true :=
  C5_fe_intersection_predicate_recursion.1 3
    (FEIntersectionPredicate.mk [unitCube] [nestedCube]) [.active 0]
    (by simp)
    (by
      intro c hc
      rw [List.mem_singleton] at hc
      rw [hc]
      exact Cell.WellFormed.active 0)

/-! ### OverlapTriangulation::get_native_cell
    (src/include/fiddle/grid/overlap_tria.h, lines 105-116) -/

/-- Squared Euclidean distance between two coordinate lists. The source
compares `(native_cell->barycenter() - cell->barycenter()).norm() < 1e-12`;
since both sides are nonnegative this is equivalent to comparing the
squared norm against `1e-24`, which keeps the embedding inside ℚ. -/
def normSq (xs ys : List ℚ) : ℚ :=
  ((xs.zip ys).map fun p => (p.1 - p.2) ^ 2).sum

/-- An overlap cell as read by `get_native_cell`: its user index (set by
`add_native_cell` during mesh construction) and its barycenter. -/
structure OverlapCellRef where
  user_index : Nat
  barycenter : List ℚ

/-- The state of an `fdl::OverlapTriangulation` that `get_native_cell`
reads: the recorded `(level, index)` pairs of native cells, and the
native triangulation's geometry as a map from `(level, index)` to the
barycenter of that native cell. -/
structure OverlapTriangulation where
  native_cells : List (Int × Int)
  native_barycenter : Int × Int → List ℚ

/-- `OverlapTriangulation::get_native_cell`: bounds-check the cell's user
index against `native_cells` (`AssertIndexRange`), build the native cell
iterator from the stored `(level, index)` pair, and assert that the two
barycenters agree to within `1e-12` (`Assert(... .norm() < 1e-12,
ExcInternalError())`); a failed assertion is fatal, embedded as `none`. -/
def OverlapTriangulation.get_native_cell (o : OverlapTriangulation)
    (cell : OverlapCellRef) : Option (Int × Int) :=
  if h : cell.user_index < o.native_cells.length then
    let pair := o.native_cells.get ⟨cell.user_index, h⟩
    if normSq (o.native_barycenter pair) cell.barycenter < 1 / 10 ^ 24 then
      some pair
    else
      none
  else
    none

/-- C2: whenever `get_native_cell` returns a native cell (rather than
fatally aborting), that cell is the one recorded at the overlap cell's
user index and its barycenter agrees with the overlap cell's barycenter
to within `1e-12` (squared norm below `1e-24`); conversely, when the
barycenters diverge by at least the tolerance the lookup is a fatal
internal error (`none`). -/
theorem C2_get_native_cell_barycenter :
    (∀ (o : OverlapTriangulation) (cell : OverlapCellRef) (pair : Int × Int),
       o.get_native_cell cell = some pair →
       normSq (o.native_barycenter pair) cell.barycenter < 1 / 10 ^ 24) ∧
    (∀ (o : OverlapTriangulation) (cell : OverlapCellRef)
       (h : cell.user_index < o.native_cells.length),
       ¬ normSq (o.native_barycenter (o.native_cells.get ⟨cell.user_index, h⟩))
           cell.barycenter < 1 / 10 ^ 24 →
       o.get_native_cell cell = none) := by
  constructor
  · intro o cell pair hsome
    rw [OverlapTriangulation.get_native_cell] at hsome
    split at hsome
    · dsimp only at hsome
      split at hsome
      · rw [Option.some_inj] at hsome
        subst hsome
        assumption
      · exact absurd hsome (Option.noConfusion)
    · exact absurd hsome (Option.noConfusion)
  · intro o cell h hfar
    rw [OverlapTriangulation.get_native_cell, dif_pos h]
    dsimp only
    rw [if_neg hfar]

/-- Witness for C2: a one-cell overlap triangulation whose recorded
native cell has the same barycenter as the overlap cell. -/
theorem C2_get_native_cell_barycenter_witness :
    normSq ((OverlapTriangulation.mk [(0, 0)] fun _ => [1/2, 1/2]).native_barycenter
        (0, 0)) [1/2, 1/2] < 1 / 10 ^ 24 :=
  C2_get_native_cell_barycenter.1
    (OverlapTriangulation.mk [(0, 0)] fun _ => [1/2, 1/2])
    (OverlapCellRef.mk 0 [1/2, 1/2]) (0, 0)
    (by
      rw [OverlapTriangulation.get_native_cell]
      norm_num [normSq])

/-! ### InteractionBase transaction pipeline (src/unnamed/part_000) -/

/-- `Transaction<dim,spacedim>::State` (the states reachable from
`compute_projection_rhs_start`). -/
inductive TransactionState : Type where
  | Intermediate
  | Finish
  | Done
deriving DecidableEq

/-- `Transaction<dim,spacedim>::Operation`. -/
inductive TransactionOperation : Type where
  | Interpolation
  | Spreading
deriving DecidableEq

/-- `dealii::VectorOperation`: the reduction kind passed to a scatter. -/
inductive VectorOperation : Type where
  | insert
  | add
deriving DecidableEq

/-- `fdl::Transaction<dim,spacedim>`: the per-operation record built by
`compute_projection_rhs_start`. Vectors keyed by native global index are
total maps `Nat → ℚ`; overlap-space vectors are lists indexed by overlap
local index. `f_scatter_op` records the reduction operation passed to
`overlap_to_global_start` (held by the in-flight scatter between the
Intermediate and Finish phases). -/
structure Transaction where
  current_f_data_idx : Int
  native_quad_indices : List Nat
  quad_indices_work : List Nat
  overlap_quad_indices : List Nat
  native_X : Nat → ℚ
  overlap_X_vec : List ℚ
  native_F_rhs : Nat → ℚ
  overlap_F_rhs : List ℚ
  f_scatter_op : Option VectorOperation
  next_state : TransactionState
  operation : TransactionOperation

/-- The state of an `fdl::InteractionBase` read by the three phase calls:
the translation tables of the X and F scatters (overlap local dof →
native global dof), the buffer sizes computed at `reinit`, and the ghost
exchange of the active-cell-index partitioner. -/
structure InteractionBase where
  x_translation : List Nat
  f_translation : List Nat
  n_overlap_active_cells : Nat
  quad_index_work_size : Nat
  n_overlap_X_dofs : Nat
  n_overlap_F_dofs : Nat
  n_locally_owned_active_cells : Nat
  quad_exchange : List Nat → List Nat

/-- Modelled from the spec: `Scatter::global_to_overlap` (start+finish),
whose class is not part of this excerpt — copies entries from a vector
keyed by native global index into a vector keyed by overlap local index,
using the translation table as a gather map (no reduction). -/
def Scatter.global_to_overlap (table : List Nat) (global : Nat → ℚ) : List ℚ :=
  table.map global

/-- Modelled from the spec: `Scatter::overlap_to_global` (start+finish),
whose class is not part of this excerpt — redistributes overlap entries
onto their native destinations through the translation table with the
caller-specified reduction: `add` sums all aliased contributions onto the
existing entry, `insert` overwrites it with a contributed value (or keeps
it when no overlap entry aliases it). -/
def Scatter.overlap_to_global (op : VectorOperation) (table : List Nat)
    (overlap : List ℚ) (global : Nat → ℚ) : Nat → ℚ :=
  match op with
  | .add => fun i =>
      global i +
        (((table.zip overlap).filter fun p => decide (p.1 = i)).map Prod.snd).sum
  | .insert => fun i =>
      ((((table.zip overlap).filter fun p => decide (p.1 = i)).map Prod.snd).headD
        (global i))

/-- `InteractionBase::compute_projection_rhs_start`: asserts one
quadrature index per locally owned active cell (fatal otherwise), builds
the Transaction (buffers sized from the `reinit`-time plan, overlap
vectors `reinit`ed to zeros, state Intermediate, operation
Interpolation), and issues the X scatter start on channel 0 and the
quadrature-index export start on channel 1; both complete in the
Intermediate phase, where the embedding applies their net effect. The
debug-mode communicator-congruence checks compare MPI handles that this
embedding does not model. -/
def InteractionBase.compute_projection_rhs_start (ib : InteractionBase)
    (f_data_idx : Int) (quad_indices : List Nat) (X : Nat → ℚ)
    (F_rhs : Nat → ℚ) : Option Transaction :=
  if quad_indices.length = ib.n_locally_owned_active_cells then
    some
      { current_f_data_idx := f_data_idx
        native_quad_indices := quad_indices
        quad_indices_work := List.replicate ib.quad_index_work_size 0
        overlap_quad_indices := List.replicate ib.n_overlap_active_cells 0
        native_X := X
        overlap_X_vec := List.replicate ib.n_overlap_X_dofs 0
        native_F_rhs := F_rhs
        overlap_F_rhs := List.replicate ib.n_overlap_F_dofs 0
        f_scatter_op := none
        next_state := TransactionState.Intermediate
        operation := TransactionOperation.Interpolation }
  else none

/-- `InteractionBase::compute_projection_rhs_intermediate`: asserts
operation == Interpolation and state == Intermediate (fatal otherwise),
completes the X scatter and the quadrature-index export, issues
`overlap_to_global_start(overlap_F_rhs, VectorOperation::add, 0,
native_F_rhs)`, and advances the state to Finish. -/
def InteractionBase.compute_projection_rhs_intermediate (ib : InteractionBase)
    (t : Transaction) : Option Transaction :=
  if t.operation = TransactionOperation.Interpolation ∧
      t.next_state = TransactionState.Intermediate then
    some
      { t with
        overlap_X_vec := Scatter.global_to_overlap ib.x_translation t.native_X
        overlap_quad_indices := ib.quad_exchange t.native_quad_indices
        f_scatter_op := some VectorOperation.add
        next_state := TransactionState.Finish }
  else none

/-- `InteractionBase::compute_projection_rhs_finish`: asserts
operation == Interpolation and state == Finish (fatal otherwise),
completes `overlap_to_global_finish(overlap_F_rhs, VectorOperation::add,
native_F_rhs)`, and advances the state to Done. The returned record is
the final state of the Transaction the C++ code mutates in place before
discarding it. -/
def InteractionBase.compute_projection_rhs_finish (ib : InteractionBase)
    (t : Transaction) : Option Transaction :=
  if t.operation = TransactionOperation.Interpolation ∧
      t.next_state = TransactionState.Finish then
    some
      { t with
        native_F_rhs :=
          Scatter.overlap_to_global VectorOperation.add ib.f_translation
            t.overlap_F_rhs t.native_F_rhs
        next_state := TransactionState.Done }
  else none

/-- C3: the phase calls form a strict state machine on Transactions
produced by `compute_projection_rhs_start` (which start in state
Intermediate with operation Interpolation): `intermediate` is fatal
unless the operation is Interpolation and the state is Intermediate and
on success advances the state to Finish; `finish` is fatal unless the
state is Finish and on success advances the state to Done; hence calling
`intermediate` twice on one transaction, or `finish` before
`intermediate`, is always fatal. -/
theorem C3_projection_rhs_state_machine :
    (∀ (ib : InteractionBase) (idx : Int) (qi : List Nat) (X F : Nat → ℚ)
       (t : Transaction),
       ib.compute_projection_rhs_start idx qi X F = some t →
       t.next_state = TransactionState.Intermediate ∧
         t.operation = TransactionOperation.Interpolation) ∧
    (∀ (ib : InteractionBase) (t : Transaction),
       t.operation ≠ TransactionOperation.Interpolation ∨
         t.next_state ≠ TransactionState.Intermediate →
       ib.compute_projection_rhs_intermediate t = none) ∧
    (∀ (ib : InteractionBase) (t t' : Transaction),
       ib.compute_projection_rhs_intermediate t = some t' →
       t.operation = TransactionOperation.Interpolation ∧
         t.next_state = TransactionState.Intermediate ∧
         t'.next_state = TransactionState.Finish) ∧
    (∀ (ib : InteractionBase) (t : Transaction),
       t.next_state ≠ TransactionState.Finish →
       ib.compute_projection_rhs_finish t = none) ∧
    (∀ (ib : InteractionBase) (t t' : Transaction),
       ib.compute_projection_rhs_finish t = some t' →
       t.next_state = TransactionState.Finish ∧
         t'.next_state = TransactionState.Done) ∧
    (∀ (ib : InteractionBase) (t t' : Transaction),
       ib.compute_projection_rhs_intermediate t = some t' →
       ib.compute_projection_rhs_intermediate t' = none) ∧
    (∀ (ib : InteractionBase) (idx : Int) (qi : List Nat) (X F : Nat → ℚ)
       (t : Transaction),
       ib.compute_projection_rhs_start idx qi X F = some t →
       ib.compute_projection_rhs_finish t = none) := by
  have hstart : ∀ (ib : InteractionBase) (idx : Int) (qi : List Nat)
      (X F : Nat → ℚ) (t : Transaction),
      ib.compute_projection_rhs_start idx qi X F = some t →
      t.next_state = TransactionState.Intermediate ∧
        t.operation = TransactionOperation.Interpolation := by
    intro ib idx qi X F t h
    rw [InteractionBase.compute_projection_rhs_start] at h
    split at h
    · rw [Option.some_inj] at h
      subst h
      exact ⟨rfl, rfl⟩
    · exact absurd h (Option.noConfusion)
  have hinterm_none : ∀ (ib : InteractionBase) (t : Transaction),
      t.operation ≠ TransactionOperation.Interpolation ∨
        t.next_state ≠ TransactionState.Intermediate →
      ib.compute_projection_rhs_intermediate t = none := by
    intro ib t hbad
    rw [InteractionBase.compute_projection_rhs_intermediate, if_neg]
    rintro ⟨hop, hst⟩
    rcases hbad with hbad | hbad
    · exact hbad hop
    · exact hbad hst
  have hinterm_some : ∀ (ib : InteractionBase) (t t' : Transaction),
      ib.compute_projection_rhs_intermediate t = some t' →
      t.operation = TransactionOperation.Interpolation ∧
        t.next_state = TransactionState.Intermediate ∧
        t'.next_state = TransactionState.Finish := by
    intro ib t t' h
    rw [InteractionBase.compute_projection_rhs_intermediate] at h
    split at h
    · rw [Option.some_inj] at h
      subst h
      rename_i hcond
      exact ⟨hcond.1, hcond.2, rfl⟩
    · exact absurd h (Option.noConfusion)
  have hfinish_none : ∀ (ib : InteractionBase) (t : Transaction),
      t.next_state ≠ TransactionState.Finish →
      ib.compute_projection_rhs_finish t = none := by
    intro ib t hbad
    rw [InteractionBase.compute_projection_rhs_finish, if_neg]
    rintro ⟨_, hst⟩
    exact hbad hst
  have hfinish_some : ∀ (ib : InteractionBase) (t t' : Transaction),
      ib.compute_projection_rhs_finish t = some t' →
      t.next_state = TransactionState.Finish ∧
        t'.next_state = TransactionState.Done := by
    intro ib t t' h
    rw [InteractionBase.compute_projection_rhs_finish] at h
    split at h
    · rw [Option.some_inj] at h
      subst h
      rename_i hcond
      exact ⟨hcond.2, rfl⟩
    · exact absurd h (Option.noConfusion)
  refine ⟨hstart, hinterm_none, hinterm_some, hfinish_none, hfinish_some, ?_, ?_⟩
  · intro ib t t' h
    have := (hinterm_some ib t t' h).2.2
    apply hinterm_none
    right
    rw [this]
    intro hcontr
    exact TransactionState.noConfusion hcontr
  · intro ib idx qi X F t h
    have := (hstart ib idx qi X F t h).1
    apply hfinish_none
    rw [this]
    intro hcontr
    exact TransactionState.noConfusion hcontr

/-- A concrete Transaction in the state produced by
`compute_projection_rhs_start`, used by the pipeline witnesses. -/
def sampleTransaction : Transaction where
  current_f_data_idx := 0
  native_quad_indices := [0]
  quad_indices_work := []
  overlap_quad_indices := []
  native_X := fun _ => 0
  overlap_X_vec := []
  native_F_rhs := fun _ => 3
  overlap_F_rhs := [1, 2]
  f_scatter_op := none
  next_state := TransactionState.Intermediate
  operation := TransactionOperation.Interpolation

/-- A concrete InteractionBase state for the pipeline witnesses: the F
translation table sends both overlap dofs to native dof 0. -/
def sampleInteraction : InteractionBase where
  x_translation := []
  f_translation := [0, 0]
  n_overlap_active_cells := 0
  quad_index_work_size := 0
  n_overlap_X_dofs := 0
  n_overlap_F_dofs := 2
  n_locally_owned_active_cells := 1
  quad_exchange := fun l => l

/-- The result of the Intermediate phase on the sample transaction. -/
def sampleTransactionAfterIntermediate : Transaction :=
  { sampleTransaction with
    overlap_X_vec :=
      Scatter.global_to_overlap sampleInteraction.x_translation
        sampleTransaction.native_X
    overlap_quad_indices := sampleTransaction.native_quad_indices
    f_scatter_op := some VectorOperation.add
    next_state := TransactionState.Finish }

/-- Witness for C3: on the sample transaction, the Intermediate phase
succeeds and hands back a transaction in state Finish. -/
theorem C3_projection_rhs_state_machine_witness :
    sampleTransaction.operation = TransactionOperation.Interpolation ∧
      sampleTransaction.next_state = TransactionState.Intermediate ∧
      sampleTransactionAfterIntermediate.next_state = TransactionState.Finish :=
  C3_projection_rhs_state_machine.2.2.1 sampleInteraction sampleTransaction
    sampleTransactionAfterIntermediate rfl

/-- Bridge between the aliased-contribution sum written with
`zip`/`filter` and its positional formulation: when the translation table
and the overlap vector have the same length, the total contribution to
native index `i` is the sum, over all overlap positions `j`, of the
overlap entry at `j` when the table sends `j` to `i`. -/
theorem overlap_contribution_sum (table : List Nat) (ov : List ℚ) (i : Nat)
    (hlen : table.length = ov.length) :
    (((table.zip ov).filter fun p => decide (p.1 = i)).map Prod.snd).sum =
      ((List.range table.length).map fun j =>
        if table.getD j 0 = i then ov.getD j 0 else 0).sum := by
  induction table generalizing ov with
  | nil => rfl
  | cons x xs ih =>
    cases ov with
    | nil => exact absurd hlen (by simp)
    | cons v vs =>
      have hlen' : xs.length = vs.length := by
        simpa using hlen
      rw [List.zip_cons_cons, List.filter_cons, List.length_cons,
        List.range_succ_eq_map, List.map_cons, List.map_map, List.sum_cons]
      have hmap :
          (List.range xs.length).map
            ((fun j => if (x :: xs).getD j 0 = i then (v :: vs).getD j 0 else 0) ∘
              Nat.succ) =
          (List.range xs.length).map fun j =>
            if xs.getD j 0 = i then vs.getD j 0 else 0 :=
        List.map_congr_left fun j _ => by
          simp [Function.comp, List.getD_cons_succ]
      rw [hmap, ← ih vs hlen']
      by_cases hx : x = i
      · simp [hx]
      · simp [hx]

/-- C4: the overlap→global scatter of the result field issued at the
Intermediate phase and completed at the Finish phase always carries the
additive reduction (`VectorOperation::add`), so the native-space result
vector is updated in place by accumulation: each native entry receives
its previous value plus the sum of all overlap entries aliased onto it
by the translation table, never an overwrite. -/
theorem C4_projection_rhs_accumulates :
    ∀ (ib : InteractionBase) (t t₁ t₂ : Transaction),
      ib.compute_projection_rhs_intermediate t = some t₁ →
      ib.compute_projection_rhs_finish t₁ = some t₂ →
      ib.f_translation.length = t.overlap_F_rhs.length →
      t₁.f_scatter_op = some VectorOperation.add ∧
      ∀ i : Nat,
        t₂.native_F_rhs i =
          t.native_F_rhs i +
            ((List.range ib.f_translation.length).map fun j =>
              if ib.f_translation.getD j 0 = i then t.overlap_F_rhs.getD j 0
              else 0).sum := by
  intro ib t t₁ t₂ hinterm hfinish hlen
  have ht₁ :
      t₁ = { t with
        overlap_X_vec := Scatter.global_to_overlap ib.x_translation t.native_X
        overlap_quad_indices := ib.quad_exchange t.native_quad_indices
        f_scatter_op := some VectorOperation.add
        next_state := TransactionState.Finish } := by
    rw [InteractionBase.compute_projection_rhs_intermediate] at hinterm
    split at hinterm
    · exact (Option.some_inj.mp hinterm).symm
    · exact absurd hinterm (Option.noConfusion)
  have ht₂ :
      t₂ = { t₁ with
        native_F_rhs :=
          Scatter.overlap_to_global VectorOperation.add ib.f_translation
            t₁.overlap_F_rhs t₁.native_F_rhs
        next_state := TransactionState.Done } := by
    rw [InteractionBase.compute_projection_rhs_finish] at hfinish
    split at hfinish
    · exact (Option.some_inj.mp hfinish).symm
    · exact absurd hfinish (Option.noConfusion)
  subst ht₁
  subst ht₂
  refine ⟨rfl, fun i => ?_⟩
  rw [Scatter.overlap_to_global]
  dsimp only
  rw [overlap_contribution_sum ib.f_translation t.overlap_F_rhs i hlen]

/-- Witness for C4: on the sample transaction (overlap result entries 1
and 2, both aliased to native dof 0 by the translation table) the
pipeline records the additive reduction and accumulates. -/
theorem C4_projection_rhs_accumulates_witness :
    sampleTransactionAfterIntermediate.f_scatter_op =
        some VectorOperation.add ∧
      ∀ i : Nat,
        ({ sampleTransactionAfterIntermediate with
            native_F_rhs :=
              Scatter.overlap_to_global VectorOperation.add
                sampleInteraction.f_translation
                sampleTransactionAfterIntermediate.overlap_F_rhs
                sampleTransactionAfterIntermediate.native_F_rhs
            next_state := TransactionState.Done } : Transaction).native_F_rhs i =
          sampleTransaction.native_F_rhs i +
            ((List.range sampleInteraction.f_translation.length).map fun j =>
              if sampleInteraction.f_translation.getD j 0 = i then
                sampleTransaction.overlap_F_rhs.getD j 0
              else 0).sum :=
  C4_projection_rhs_accumulates sampleInteraction sampleTransaction
    sampleTransactionAfterIntermediate
    { sampleTransactionAfterIntermediate with
      native_F_rhs :=
        Scatter.overlap_to_global VectorOperation.add
          sampleInteraction.f_translation
          sampleTransactionAfterIntermediate.overlap_F_rhs
          sampleTransactionAfterIntermediate.native_F_rhs
      next_state := TransactionState.Done }
    rfl rfl rfl

/-! ### InteractionBase::add_dof_handler (src/unnamed/part_000, lines 201-230) -/

/-- A native `DoFHandler` as seen by `add_dof_handler`: its address
(pointer identity) and the identity of the triangulation it is built
on. -/
structure DoFHandlerRef where
  id : Nat
  tria : Nat
deriving DecidableEq

/-- A `Scatter<double>` held in the registry: it owns the translation
table it was constructed from. -/
structure ScatterEntry where
  overlap_to_native_dofs : List Nat
deriving DecidableEq

/-- The registry slice of `InteractionBase` that `add_dof_handler`
touches: the parallel arrays of registered native handlers (by pointer
identity), created overlap handlers, and Scatters. `mk_overlap_handler`
and `mk_translation` stand for building the overlap `DoFHandler` on the
overlap triangulation (`distribute_dofs`) and
`compute_overlap_to_native_dof_translation`, both of which depend only
on the registered native handler; the latter's implementation is not
part of this excerpt. -/
structure DoFRegistry where
  native_tria : Nat
  native_dof_handlers : List Nat
  overlap_dof_handlers : List Nat
  scatters : List ScatterEntry
  mk_overlap_handler : Nat → Nat
  mk_translation : Nat → List Nat

/-- `InteractionBase::add_dof_handler`: `AssertThrow`s that the handler
is built on the native triangulation (fatal otherwise, embedded as
`none`); when the handler's address is not yet registered, appends it
together with a freshly built overlap handler and a Scatter constructed
from the overlap→native dof translation; when it is already registered,
does nothing. -/
def DoFRegistry.add_dof_handler (r : DoFRegistry) (h : DoFHandlerRef) :
    Option DoFRegistry :=
  if h.tria = r.native_tria then
    if h.id ∈ r.native_dof_handlers then
      some r
    else
      some
        { r with
          native_dof_handlers := r.native_dof_handlers ++ [h.id]
          overlap_dof_handlers :=
            r.overlap_dof_handlers ++ [r.mk_overlap_handler h.id]
          scatters := r.scatters ++ [ScatterEntry.mk (r.mk_translation h.id)] }
  else none

/-- C6: `add_dof_handler` is idempotent with respect to native handler
pointer identity — registering an already-present handler returns the
registry unchanged (no overlap handler, translation table, or Scatter is
created), registering a new one appends exactly one entry to each of the
three parallel arrays, and registration preserves duplicate-freedom of
the native handler list, so the registry keeps at most one overlap
handler per distinct native handler. -/
theorem C6_add_dof_handler_idempotent :
    (∀ (r : DoFRegistry) (h : DoFHandlerRef),
       h.tria = r.native_tria → h.id ∈ r.native_dof_handlers →
       r.add_dof_handler h = some r) ∧
    (∀ (r : DoFRegistry) (h : DoFHandlerRef) (r' : DoFRegistry),
       r.add_dof_handler h = some r' → r'.add_dof_handler h = some r') ∧
    (∀ (r : DoFRegistry) (h : DoFHandlerRef),
       h.tria = r.native_tria → h.id ∉ r.native_dof_handlers →
       ∃ r', r.add_dof_handler h = some r' ∧
         r'.native_dof_handlers = r.native_dof_handlers ++ [h.id] ∧
         r'.native_dof_handlers.length = r.native_dof_handlers.length + 1 ∧
         r'.overlap_dof_handlers.length = r.overlap_dof_handlers.length + 1 ∧
         r'.scatters.length = r.scatters.length + 1) ∧
    (∀ (r : DoFRegistry) (h : DoFHandlerRef) (r' : DoFRegistry),
       r.add_dof_handler h = some r' → r.native_dof_handlers.Nodup →
       r'.native_dof_handlers.Nodup) := by
  have hold : ∀ (r : DoFRegistry) (h : DoFHandlerRef),
      h.tria = r.native_tria → h.id ∈ r.native_dof_handlers →
      r.add_dof_handler h = some r := by
    intro r h htria hmem
    rw [DoFRegistry.add_dof_handler, if_pos htria, if_pos hmem]
  have hnew : ∀ (r : DoFRegistry) (h : DoFHandlerRef),
      h.tria = r.native_tria → h.id ∉ r.native_dof_handlers →
      r.add_dof_handler h =
        some
          { r with
            native_dof_handlers := r.native_dof_handlers ++ [h.id]
            overlap_dof_handlers :=
              r.overlap_dof_handlers ++ [r.mk_overlap_handler h.id]
            scatters :=
              r.scatters ++ [ScatterEntry.mk (r.mk_translation h.id)] } := by
    intro r h htria hmem
    rw [DoFRegistry.add_dof_handler, if_pos htria, if_neg hmem]
  have hcases : ∀ (r : DoFRegistry) (h : DoFHandlerRef) (r' : DoFRegistry),
      r.add_dof_handler h = some r' →
      h.tria = r.native_tria ∧
        ((h.id ∈ r.native_dof_handlers ∧ r' = r) ∨
         (h.id ∉ r.native_dof_handlers ∧
           r' = { r with
             native_dof_handlers := r.native_dof_handlers ++ [h.id]
             overlap_dof_handlers :=
               r.overlap_dof_handlers ++ [r.mk_overlap_handler h.id]
             scatters :=
               r.scatters ++ [ScatterEntry.mk (r.mk_translation h.id)] })) := by
    intro r h r' hsome
    rw [DoFRegistry.add_dof_handler] at hsome
    split at hsome
    · rename_i htria
      refine ⟨htria, ?_⟩
      split at hsome
      · rename_i hmem
        exact Or.inl ⟨hmem, (Option.some_inj.mp hsome).symm⟩
      · rename_i hmem
        exact Or.inr ⟨hmem, (Option.some_inj.mp hsome).symm⟩
    · exact absurd hsome (Option.noConfusion)
  refine ⟨hold, ?_, ?_, ?_⟩
  · intro r h r' hsome
    obtain ⟨htria, hcase⟩ := hcases r h r' hsome
    rcases hcase with ⟨hmem, heq⟩ | ⟨hmem, heq⟩
    · rw [heq]
      exact hold r h htria hmem
    · rw [heq]
      exact hold _ h htria (by simp)
  · intro r h htria hmem
    exact ⟨_, hnew r h htria hmem, rfl, by simp, by simp, by simp⟩
  · intro r h r' hsome hnd
    obtain ⟨htria, hcase⟩ := hcases r h r' hsome
    rcases hcase with ⟨hmem, heq⟩ | ⟨hmem, heq⟩
    · rw [heq]
      exact hnd
    · rw [heq]
      simpa [List.nodup_append] using ⟨hnd, hmem⟩

/-- A concrete registry with one registered handler, for the C6
witness. -/
def sampleRegistry : DoFRegistry where
  native_tria := 7
  native_dof_handlers := [3]
  overlap_dof_handlers := [0]
  scatters := [ScatterEntry.mk [0]]
  mk_overlap_handler := fun h => h
  mk_translation := fun _ => [0]

/-- Witness for C6: re-registering the already-registered handler of the
sample registry is a no-op. -/
theorem C6_add_dof_handler_idempotent_witness :
    sampleRegistry.add_dof_handler (DoFHandlerRef.mk 3 7) =
      some sampleRegistry :=
  C6_add_dof_handler_idempotent.1 sampleRegistry (DoFHandlerRef.mk 3 7) rfl
    (by simp [sampleRegistry])

/-! ### InteractionBase::reinit — communicator handling
    (src/unnamed/part_000, lines 55-61) -/

/-- The communicator-related slice of `InteractionBase::reinit`: the
dedicated duplicated communicator (`MPI_COMM_NULL` embedded as `none`),
the communicator of the currently stored native triangulation, and a
supply of fresh handles standing for `MPI_Comm_dup` results (each
duplication yields a handle distinct from every previously produced
one). -/
structure CommState where
  communicator : Option Nat
  native_comm : Nat
  next_fresh : Nat

/-- The communicator logic at the top of `InteractionBase::reinit`: the
communicator is duplicated from the new triangulation's communicator
only when it is still `MPI_COMM_NULL` (first initialization) or when the
stored triangulation's communicator differs from the new one; afterwards
`native_tria` is repointed at the new triangulation, so the stored
communicator identity becomes `new_comm`. -/
def CommState.reinit (s : CommState) (new_comm : Nat) : CommState :=
  if s.communicator = none ∨ s.native_comm ≠ new_comm then
    { communicator := some s.next_fresh
      native_comm := new_comm
      next_fresh := s.next_fresh + 1 }
  else
    { s with native_comm := new_comm }

/-- C7: on a `reinit` after the first (communicator non-null), the
dedicated communicator field is unchanged whenever the new
triangulation's process group equals the stored one; it is duplicated
anew (receiving a fresh handle) exactly on first initialization or when
the process group differs. -/
theorem C7_reinit_communicator_frame :
    (∀ (s : CommState) (c : Nat),
       s.communicator ≠ none → s.native_comm = c →
       (s.reinit c).communicator = s.communicator) ∧
    (∀ (s : CommState) (c : Nat),
       (s.reinit c).communicator ≠ s.communicator →
       s.communicator = none ∨ s.native_comm ≠ c) ∧
    (∀ (s : CommState) (c : Nat),
       s.communicator = none ∨ s.native_comm ≠ c →
       (s.reinit c).communicator = some s.next_fresh) := by
  refine ⟨?_, ?_, ?_⟩
  · intro s c hnn heq
    rw [CommState.reinit, if_neg]
    rintro (hnull | hne)
    · exact hnn hnull
    · exact hne heq
  · intro s c hchanged
    by_contra hcontr
    push_neg at hcontr
    apply hchanged
    rw [CommState.reinit, if_neg]
    rintro (hnull | hne)
    · exact hcontr.1 hnull
    · exact hne hcontr.2
  · intro s c hcond
    rw [CommState.reinit, if_pos hcond]

/-- Witness for C7: a second `reinit` with the same communicator leaves
the duplicated handle untouched. -/
theorem C7_reinit_communicator_frame_witness :
    ((CommState.mk (some 5) 2 6).reinit 2).communicator = some 5 :=
  C7_reinit_communicator_frame.1 (CommState.mk (some 5) 2 6) 2
    (by simp) rfl

/-! ### Part::set_position / set_velocity (src/unnamed/part_003, lines 284-340) -/

/-- A `LinearAlgebra::distributed::Vector<double>`: its partitioner
(compared by pointer identity in the source's `Assert`) and its
entries. -/
structure LAVector where
  partitioner : Nat
  values : List ℚ
deriving DecidableEq

/-- The state of an `fdl::Part<dim,spacedim>`. The triangulation, finite
element, dof handler, quadrature, and mapping members are modelled by
their identities; `position` and `velocity` are the two state vectors. -/
structure Part where
  tria : Nat
  fe : Nat
  dof_handler : Nat
  partitioner : Nat
  quadrature : Nat
  mapping : Nat
  position : LAVector
  velocity : LAVector
deriving DecidableEq

/-- `Part::get_position`. -/
def Part.get_position (p : Part) : LAVector := p.position

/-- `Part::get_velocity`. -/
def Part.get_velocity (p : Part) : LAVector := p.velocity

/-- `Part::get_triangulation` (the identity of `*tria`). -/
def Part.get_triangulation (p : Part) : Nat := p.tria

/-- `Part::get_dof_handler` (the identity of `*dof_handler`). -/
def Part.get_dof_handler (p : Part) : Nat := p.dof_handler

/-- `Part::get_quadrature`. -/
def Part.get_quadrature (p : Part) : Nat := p.quadrature

/-- `Part::get_mapping` (the identity of `*mapping`). -/
def Part.get_mapping (p : Part) : Nat := p.mapping

/-- `Part::set_position` (copying overload): asserts the argument's
partitioner equals the Part's (fatal otherwise, embedded as `none`), then
copy-assigns `position = pos`. -/
def Part.set_position (p : Part) (pos : LAVector) : Option Part :=
  if pos.partitioner = p.partitioner then
    some { p with position := pos }
  else none

/-- `Part::set_position` (moving overload): the same assertion, then
`position.swap(pos)`; the resulting Part state, paired with the vector
the argument holds after the swap (the old position). -/
def Part.set_position_move (p : Part) (pos : LAVector) :
    Option (Part × LAVector) :=
  if pos.partitioner = p.partitioner then
    some ({ p with position := pos }, p.position)
  else none

/-- `Part::set_velocity` (copying overload). -/
def Part.set_velocity (p : Part) (vel : LAVector) : Option Part :=
  if vel.partitioner = p.partitioner then
    some { p with velocity := vel }
  else none

/-- `Part::set_velocity` (moving overload). -/
def Part.set_velocity_move (p : Part) (vel : LAVector) :
    Option (Part × LAVector) :=
  if vel.partitioner = p.partitioner then
    some ({ p with velocity := vel }, p.velocity)
  else none

/-- C9: with a matching partitioner, both `set_position` overloads
succeed, make `get_position` return the argument, and leave the
velocity, triangulation, dof handler, quadrature, and mapping exactly as
before; symmetrically, `set_velocity` leaves the position unchanged. -/
theorem C9_part_setters_frame :
    ∀ (p : Part) (v : LAVector), v.partitioner = p.partitioner →
      (∃ p₁, p.set_position v = some p₁ ∧
         p₁.get_position = v ∧
         p₁.get_velocity = p.get_velocity ∧
         p₁.get_triangulation = p.get_triangulation ∧
         p₁.get_dof_handler = p.get_dof_handler ∧
         p₁.get_quadrature = p.get_quadrature ∧
         p₁.get_mapping = p.get_mapping) ∧
      (∃ p₂, p.set_position_move v = some (p₂, p.get_position) ∧
         p₂.get_position = v ∧
         p₂.get_velocity = p.get_velocity ∧
         p₂.get_triangulation = p.get_triangulation ∧
         p₂.get_dof_handler = p.get_dof_handler ∧
         p₂.get_quadrature = p.get_quadrature ∧
         p₂.get_mapping = p.get_mapping) ∧
      (∃ p₃, p.set_velocity v = some p₃ ∧
         p₃.get_velocity = v ∧
         p₃.get_position = p.get_position ∧
         p₃.get_triangulation = p.get_triangulation ∧
         p₃.get_dof_handler = p.get_dof_handler ∧
         p₃.get_quadrature = p.get_quadrature ∧
         p₃.get_mapping = p.get_mapping) ∧
      (∃ p₄, p.set_velocity_move v = some (p₄, p.get_velocity) ∧
         p₄.get_velocity = v ∧
         p₄.get_position = p.get_position) := by
  intro p v hpart
  refine ⟨⟨{ p with position := v }, ?_, rfl, rfl, rfl, rfl, rfl, rfl⟩,
          ⟨{ p with position := v }, ?_, rfl, rfl, rfl, rfl, rfl, rfl⟩,
          ⟨{ p with velocity := v }, ?_, rfl, rfl, rfl, rfl, rfl, rfl⟩,
          ⟨{ p with velocity := v }, ?_, rfl, rfl⟩⟩
  · rw [Part.set_position, if_pos hpart]
  · rw [Part.set_position_move, if_pos hpart]
    rfl
  · rw [Part.set_velocity, if_pos hpart]
  · rw [Part.set_velocity_move, if_pos hpart]
    rfl

/-- A concrete Part for the C9 witness. -/
def samplePart : Part where
  tria := 1
  fe := 2
  dof_handler := 3
  partitioner := 4
  quadrature := 5
  mapping := 6
  position := LAVector.mk 4 [1, 2]
  velocity := LAVector.mk 4 [3, 4]

/-- Witness for C9: setting the position of the sample Part with a
vector on the same partitioner. -/
theorem C9_part_setters_frame_witness :
    ∃ p₁, samplePart.set_position (LAVector.mk 4 [7, 8]) = some p₁ ∧
      p₁.get_position = LAVector.mk 4 [7, 8] ∧
      p₁.get_velocity = samplePart.get_velocity ∧
      p₁.get_triangulation = samplePart.get_triangulation ∧
      p₁.get_dof_handler = samplePart.get_dof_handler ∧
      p₁.get_quadrature = samplePart.get_quadrature ∧
      p₁.get_mapping = samplePart.get_mapping :=
  (C9_part_setters_frame samplePart (LAVector.mk 4 [7, 8]) rfl).1

/-! ### FiberNetwork::get_fibers (src/unnamed/part_001, lines 10-24) -/

/-- The state of an `fdl::FiberNetwork<dim,spacedim>` read by
`get_fibers`: the two-dimensional table of fiber tensors
(`fibers(row, col)`, with `size(1)` columns) and the processor's minimum
local cell index. Entries are drawn from an arbitrary type standing for
`Tensor<1, spacedim>`. -/
structure FiberNetwork (α : Type) where
  fibers : Nat → Nat → α
  n_fiber_cols : Nat
  local_processor_min_cell_index : Nat

/-- `FiberNetwork::get_fibers`: computes
`cell_index = cell->global_active_cell_index() - local_processor_min_cell_index`
and returns the vector whose `j`-th entry, for `j` below `fibers.size(1)`,
is `fibers(cell_index, j)`. The method is `const`, so the stored table is
left unchanged; the embedding is a pure function of the network state. -/
def FiberNetwork.get_fibers {α : Type} (fn : FiberNetwork α)
    (global_active_cell_index : Nat) : List α :=
  (List.range fn.n_fiber_cols).map fun j =>
    fn.fibers (global_active_cell_index - fn.local_processor_min_cell_index) j

/-- C10: the sequence returned by `get_fibers` has exactly
`fibers.size(1)` entries, and its `j`-th entry is `fibers(c, j)` where
`c` is the cell's global active cell index minus the processor's minimum
local cell index. -/
theorem C10_get_fibers :
    ∀ (α : Type) (fn : FiberNetwork α) (g : Nat),
      (fn.get_fibers g).length = fn.n_fiber_cols ∧
      ∀ j : Nat, j < fn.n_fiber_cols →
        (fn.get_fibers g).get? j =
          some (fn.fibers (g - fn.local_processor_min_cell_index) j) := by
  intro α fn g
  constructor
  · rw [FiberNetwork.get_fibers, List.length_map, List.length_range]
  · intro j hj
    rw [FiberNetwork.get_fibers, List.get?_eq_getElem?, List.getElem?_map,
      List.getElem?_range hj]
    rfl

/-- Witness for C10: a two-column fiber table whose entries encode their
own coordinates, read at global cell index 5 with minimum local index 3. -/
theorem C10_get_fibers_witness :
    ((FiberNetwork.mk (fun i j => (i, j)) 2 3).get_fibers 5).get? 1 =
      some (5 - 3, 1) :=
  (C10_get_fibers (Nat × Nat) (FiberNetwork.mk (fun i j => (i, j)) 2 3) 5).2 1
    (by norm_num)

end Fdl
